import Mathlib

/-!
Verification of the report-cache core of a stock-analyzer single-page app
(`src/app/page.tsx`). The page keeps a list of previously fetched analysis
reports in `localStorage` under the key "reports", prunes entries older than
24 hours on load, inserts a fresh entry after each successful remote call,
and lets the user delete entries. We embed the cache data model and the
state transitions of the page and prove the cache-consistency properties.
-/

/-- One retained analysis result, mirroring the `CachedReport` interface of
`page.tsx` (lines 17-23). `timestamp` is milliseconds since epoch; we use
`Int` to mirror JS number arithmetic on such values. -/
structure CachedReport where
  ticker : String
  report : String
  pdf_url : String
  oi_chart_url : Option String
  timestamp : Int
deriving DecidableEq

/-- The shape of the JSON body returned by the remote `/analyze` endpoint
(fields read at lines 138-141 and spread into the result at line 150). -/
structure ApiResponse where
  ticker : String
  analysis : Option String
  report : String
  pdf_url : String
  oi_chart_url : Option String
deriving DecidableEq

/-- The `AnalysisResult` interface of `page.tsx` (lines 8-15). -/
structure AnalysisResult where
  ticker : String
  analysis : Option String
  pdf_url : String
  report : String
  oi_chart_url : Option String
  timestamp : Option Int
deriving DecidableEq

/-- The content of the `localStorage` slot "reports": absent
(`getItem` returns null), a blob on which `JSON.parse` (or decoding to a
report list) fails, or a valid encoded list of reports. -/
inductive StoredBlob where
  | absent
  | malformed
  | valid (reports : List CachedReport)
deriving DecidableEq

/-- Twenty-four hours in milliseconds: the retention window `24 * 60 * 60 * 1000`
used at line 46 of `page.tsx`. -/
def RETENTION_WINDOW : Int := 24 * 60 * 60 * 1000

/-- Stable insertion of a report into a list kept in descending timestamp
order: an existing element stays in front whenever its timestamp is `≥` the
inserted one, matching the order produced by the comparator
`(a, b) => b.timestamp - a.timestamp` at line 47. -/
def insertDesc (r : CachedReport) : List CachedReport → List CachedReport
  | [] => [r]
  | x :: xs => if r.timestamp ≤ x.timestamp then x :: insertDesc r xs else r :: x :: xs

/-- The sort `recent.sort((a, b) => b.timestamp - a.timestamp)` at line 47:
a stable sort in descending timestamp order. -/
def sortDesc : List CachedReport → List CachedReport
  | [] => []
  | x :: xs => insertDesc x (sortDesc xs)

/-- The loader `loadCachedReports` (lines 38-56): reads the persisted blob; if absent
nothing happens; if decoding fails the `catch` swallows the error (only a
console log) and neither memory nor storage changes; otherwise entries with
`now - r.timestamp < 24h` are kept, the in-place `sort` orders them most
recent first, the sorted list becomes the in-memory view and is written back
to storage. Returns (in-memory list, storage after the call). -/
def loadCachedReports (stored : StoredBlob) (now : Int) :
    List CachedReport × StoredBlob :=
  match stored with
  | .absent => ([], .absent)
  | .malformed => ([], .malformed)
  | .valid reports =>
      let recent := reports.filter (fun r => now - r.timestamp < RETENTION_WINDOW)
      let sorted := sortDesc recent
      (sorted, .valid sorted)

/-- The cache lookup `recentReports.find((r) => r.ticker === ticker)` at
line 107: first entry whose ticker is exactly the given string. -/
def lookup (cache : List CachedReport) (ticker : String) : Option CachedReport :=
  cache.find? (fun r => r.ticker == ticker)

/-- The cache-merge step of a successful analyze (line 146):
`[newReport, ...recentReports.filter((r) => r.ticker !== data.ticker)]`,
where `newReport.ticker = data.ticker`. -/
def upsert (cache : List CachedReport) (e : CachedReport) : List CachedReport :=
  e :: cache.filter (fun r => r.ticker != e.ticker)

/-- The delete handler `deleteCachedReport` (lines 95-99): filters out every entry whose
ticker equals the one to delete, installs the result in memory and writes
it to storage. Returns (new in-memory list, storage after the call). -/
def deleteCachedReport (cache : List CachedReport) (tickerToDelete : String) :
    List CachedReport × StoredBlob :=
  let updated := cache.filter (fun r => r.ticker != tickerToDelete)
  (updated, .valid updated)

/-- The component state of `Home` (lines 26-32) together with the
`localStorage` slot it reads and writes. -/
structure HomeState where
  ticker : String
  loading : Bool
  result : Option AnalysisResult
  error : String
  recentReports : List CachedReport
  cachedReport : Option CachedReport
  storage : StoredBlob
deriving DecidableEq

/-- The ticker-input change handler (line 176):
`setTicker(e.target.value.toUpperCase())`. -/
def onTickerChange (s : HomeState) (value : String) : HomeState :=
  { s with ticker := value.toUpper }

/-- The outcome of the `fetch` at lines 120-132: a failure (transport error,
non-ok response — which throws the fixed message at line 129 — or a JSON
decode error) carrying the thrown message, or a decoded success body. -/
inductive FetchOutcome where
  | failure (msg : String)
  | success (data : ApiResponse)
deriving DecidableEq

/-- The submit handler `handleAnalyze` (lines 101-156) as a state transition. Besides the new
state it returns whether the network request was issued. An empty ticker
returns immediately (line 103). Unless `forceNew`, a cache hit (line 107)
records the hit and returns without fetching. Otherwise the loading flags
are set, the request is made with outcome `outcome` at time `now`; a failure
lands in the `catch` (line 152, falling back to a fixed message when the
thrown message is empty), a success builds `newReport` stamped with
`Date.now()`, merges it into the cache, persists, and publishes the result. -/
def handleAnalyze (s : HomeState) (forceNew : Bool) (outcome : FetchOutcome)
    (now : Int) : HomeState × Bool :=
  if s.ticker = "" then (s, false)
  else
    match (if forceNew then none else lookup s.recentReports s.ticker) with
    | some cached => ({ s with cachedReport := some cached }, false)
    | none =>
        let s1 : HomeState :=
          { s with loading := true, error := "", result := none, cachedReport := none }
        match outcome with
        | .failure msg =>
            ({ s1 with error := if msg = "" then "出错了，请稍后重试" else msg,
                       loading := false }, true)
        | .success data =>
            let newReport : CachedReport :=
              { ticker := data.ticker, report := data.report,
                pdf_url := data.pdf_url, oi_chart_url := data.oi_chart_url,
                timestamp := now }
            let updated := upsert s1.recentReports newReport
            ({ s1 with recentReports := updated,
                       storage := .valid updated,
                       result := some { ticker := data.ticker,
                                        analysis := data.analysis,
                                        pdf_url := data.pdf_url,
                                        report := data.report,
                                        oi_chart_url := data.oi_chart_url,
                                        timestamp := some now },
                       loading := false }, true)

/-- Descending-by-timestamp order of the cache view ("most recent first"). -/
def SortedDesc (l : List CachedReport) : Prop :=
  l.Pairwise (fun a b => b.timestamp ≤ a.timestamp)

instance : DecidablePred SortedDesc := fun l =>
  inferInstanceAs (Decidable (l.Pairwise _))

/-- The mount effect (the `useEffect` at lines 38-56) on the component
state: runs `loadCachedReports` against the persisted slot. The setter and
the write-back run only when the blob is present and decodes (lines 42-50);
an absent blob does nothing and a decode failure reaches the `catch`, which
only logs to the console — no state field changes in either case. -/
def onMount (s : HomeState) (now : Int) : HomeState :=
  match s.storage with
  | .absent => s
  | .malformed => s
  | .valid reports =>
      let out := loadCachedReports (.valid reports) now
      { s with recentReports := out.1, storage := out.2 }

/-- A concrete report for the ticker "AAPL", for witnesses. -/
def aaplReport : CachedReport :=
  { ticker := "AAPL", report := "aapl analysis", pdf_url := "http://x/a.pdf",
    oi_chart_url := none, timestamp := 1000 }

/-- A concrete report for the ticker "MSFT", created after `aaplReport`. -/
def msftReport : CachedReport :=
  { ticker := "MSFT", report := "msft analysis", pdf_url := "http://x/m.pdf",
    oi_chart_url := none, timestamp := 2000 }

/-- A concrete idle page state with an empty ticker input. -/
def idleHome : HomeState :=
  { ticker := "", loading := false, result := none, error := "",
    recentReports := [], cachedReport := none, storage := .absent }

/-- A concrete page state whose cache holds a fresh "AAPL" report and whose
input field reads "AAPL". -/
def hitHome : HomeState :=
  { ticker := "AAPL", loading := false, result := none, error := "",
    recentReports := [aaplReport], cachedReport := none, storage := .absent }

/-- A concrete page state with the input "AAPL" and an empty cache. -/
def missHome : HomeState :=
  { ticker := "AAPL", loading := false, result := none, error := "",
    recentReports := [], cachedReport := none, storage := .absent }

/-- A remote response whose server echoes a lower-case ticker; the code
stores `data.ticker` verbatim (line 138). -/
def lowercaseResponse : ApiResponse :=
  { ticker := "aapl", analysis := none, report := "r",
    pdf_url := "http://x/r.pdf", oi_chart_url := none }

/-- Whether a string is upper-case normalized: it contains no lower-case
character (what `toUpperCase` normalization guarantees). -/
def upperNormalized (t : String) : Bool :=
  t.data.all (fun c => !c.isLower)

theorem mem_insertDesc {a r : CachedReport} {l : List CachedReport} :
    a ∈ insertDesc r l ↔ a = r ∨ a ∈ l := by
  induction l with
  | nil => simp [insertDesc]
  | cons x xs ih =>
      simp only [insertDesc]
      split
      · rw [List.mem_cons, ih, List.mem_cons]
        tauto
      · simp

theorem sortedDesc_insertDesc {r : CachedReport} {l : List CachedReport}
    (h : SortedDesc l) : SortedDesc (insertDesc r l) := by
  induction l with
  | nil => exact List.pairwise_singleton _ _
  | cons x xs ih =>
      rcases List.pairwise_cons.mp h with ⟨hx, hxs⟩
      simp only [insertDesc]
      split
      · rename_i hle
        refine List.pairwise_cons.mpr ⟨?_, ih hxs⟩
        intro b hb
        rcases mem_insertDesc.mp hb with rfl | hb
        · exact hle
        · exact hx b hb
      · rename_i hgt
        refine List.pairwise_cons.mpr ⟨?_, h⟩
        intro b hb
        rcases List.mem_cons.mp hb with rfl | hb
        · exact le_of_lt (lt_of_not_le hgt)
        · exact le_trans (hx b hb) (le_of_lt (lt_of_not_le hgt))

theorem mem_sortDesc {a : CachedReport} {l : List CachedReport} :
    a ∈ sortDesc l ↔ a ∈ l := by
  induction l with
  | nil => simp [sortDesc]
  | cons x xs ih => simp [sortDesc, mem_insertDesc, ih]

theorem sortedDesc_sortDesc (l : List CachedReport) : SortedDesc (sortDesc l) := by
  induction l with
  | nil => exact List.Pairwise.nil
  | cons x xs ih => exact sortedDesc_insertDesc ih

/-- C1: after `upsert` inserts an entry `e` (the cache-merge step of a
successful analyze), `lookup` on the ticker of `e` returns exactly `e`, and the
resulting cache holds exactly one (hence at most one) entry whose ticker
equals that of `e`: any pre-existing entry for that ticker is replaced, not
duplicated. -/
theorem upsert_lookup_unique (cache : List CachedReport) (e : CachedReport) :
    lookup (upsert cache e) e.ticker = some e ∧
    (upsert cache e).countP (fun r => r.ticker == e.ticker) = 1 := by
  constructor
  · simp [lookup, upsert]
  · have h0 : (cache.filter (fun r => r.ticker != e.ticker)).countP
        (fun r => r.ticker == e.ticker) = 0 := by
      rw [List.countP_eq_zero]
      intro a ha
      have := (List.mem_filter.mp ha).2
      simpa using this
    simp [upsert, List.countP_cons, h0]

/-- C2: for a persisted collection that decodes, every entry at least 24
hours old at load time is excluded from the loaded view, and the pruned
(filtered, sorted) collection is written back to storage by the load. -/
theorem load_prunes_expired (reports : List CachedReport) (now : Int)
    (E : CachedReport) (hmem : E ∈ reports)
    (hexp : RETENTION_WINDOW ≤ now - E.timestamp) :
    E ∉ (loadCachedReports (.valid reports) now).1 ∧
    (loadCachedReports (.valid reports) now).2 =
      .valid (loadCachedReports (.valid reports) now).1 := by
  refine ⟨?_, rfl⟩
  intro hE
  simp only [loadCachedReports] at hE
  have hf := mem_sortDesc.mp hE
  have := (List.mem_filter.mp hf).2
  simp only [decide_eq_true_eq] at this
  omega

/-- Witness for C2: a concrete 25-hour-old entry is dropped and the pruned
collection persisted. -/
theorem load_prunes_expired_witness :
    aaplReport ∉ (loadCachedReports (.valid [aaplReport]) (1000 + 25 * 60 * 60 * 1000)).1 ∧
    (loadCachedReports (.valid [aaplReport]) (1000 + 25 * 60 * 60 * 1000)).2 =
      .valid (loadCachedReports (.valid [aaplReport]) (1000 + 25 * 60 * 60 * 1000)).1 :=
  load_prunes_expired [aaplReport] (1000 + 25 * 60 * 60 * 1000) aaplReport
    (by decide) (by decide)

/-- C9: deleting a ticker removes every entry that matches it, so a
subsequent lookup for that ticker returns nothing, and the filtered result
is persisted to storage. -/
theorem remove_then_lookup_none (cache : List CachedReport) (t : String) :
    lookup (deleteCachedReport cache t).1 t = none ∧
    (deleteCachedReport cache t).2 = .valid (deleteCachedReport cache t).1 := by
  refine ⟨?_, rfl⟩
  rw [lookup, List.find?_eq_none]
  intro r hr
  have := (List.mem_filter.mp hr).2
  simpa using this

/-- C10: submitting with an empty ticker is a complete no-op: no network
request and the whole state (loading flag, error, result, cached-report
selection, in-memory cache, and persisted storage) is unchanged. -/
theorem empty_ticker_no_op (s : HomeState) (forceNew : Bool)
    (outcome : FetchOutcome) (now : Int) (h : s.ticker = "") :
    handleAnalyze s forceNew outcome now = (s, false) := by
  simp [handleAnalyze, h]

/-- Witness for C10 at a concrete idle state. -/
theorem empty_ticker_no_op_witness :
    handleAnalyze idleHome false (.failure "boom") 0 = (idleHome, false) :=
  empty_ticker_no_op idleHome false (.failure "boom") 0 rfl

/-- C3: when the request is actually issued (nonempty ticker, cache miss or
forced refresh) and the remote call fails, the analyze transition reports a
nonempty error, publishes no result, and leaves both the in-memory cache
and persistent storage exactly as they were. -/
theorem analyze_failure_frame (s : HomeState) (forceNew : Bool)
    (msg : String) (now : Int) (hticker : s.ticker ≠ "")
    (hmiss : forceNew = true ∨ lookup s.recentReports s.ticker = none) :
    (handleAnalyze s forceNew (.failure msg) now).1.recentReports = s.recentReports ∧
    (handleAnalyze s forceNew (.failure msg) now).1.storage = s.storage ∧
    (handleAnalyze s forceNew (.failure msg) now).1.error ≠ "" ∧
    (handleAnalyze s forceNew (.failure msg) now).1.result = none ∧
    (handleAnalyze s forceNew (.failure msg) now).2 = true := by
  have herr : (if msg = "" then "出错了，请稍后重试" else msg) ≠ "" := by
    by_cases hm : msg = "" <;> simp [hm]
  cases forceNew with
  | true => simp [handleAnalyze, hticker, herr]
  | false =>
      have hl : lookup s.recentReports s.ticker = none := by
        rcases hmiss with h | h
        · exact absurd h (by simp)
        · exact h
      simp [handleAnalyze, hticker, hl, herr]

/-- Witness for C3: a failed call for "ZZZZ" on an empty cache leaves cache
and storage untouched and sets an error. -/
theorem analyze_failure_frame_witness :
    (handleAnalyze { idleHome with ticker := "ZZZZ" } false (.failure "") 0).1.recentReports =
      ({ idleHome with ticker := "ZZZZ" } : HomeState).recentReports ∧
    (handleAnalyze { idleHome with ticker := "ZZZZ" } false (.failure "") 0).1.storage =
      ({ idleHome with ticker := "ZZZZ" } : HomeState).storage ∧
    (handleAnalyze { idleHome with ticker := "ZZZZ" } false (.failure "") 0).1.error ≠ "" ∧
    (handleAnalyze { idleHome with ticker := "ZZZZ" } false (.failure "") 0).1.result = none ∧
    (handleAnalyze { idleHome with ticker := "ZZZZ" } false (.failure "") 0).2 = true :=
  analyze_failure_frame { idleHome with ticker := "ZZZZ" } false "" 0
    (by decide) (Or.inr rfl)

/-- C4: with `forceRefresh` false and a fresh matching cached entry, analyze
records a cache hit referencing that entry, changes nothing else, and issues
no network request; moreover, for any state, a network request is issued
only under a forced refresh or a cache miss. -/
theorem analyze_cache_hit_no_network (s : HomeState) (outcome : FetchOutcome)
    (now : Int) (cached : CachedReport) (hticker : s.ticker ≠ "")
    (hhit : lookup s.recentReports s.ticker = some cached)
    (hfresh : now - cached.timestamp < RETENTION_WINDOW) :
    handleAnalyze s false outcome now = ({ s with cachedReport := some cached }, false) ∧
    (∀ s2 : HomeState, ∀ fn : Bool, ∀ oc : FetchOutcome, ∀ n : Int,
        (handleAnalyze s2 fn oc n).2 = true →
        fn = true ∨ lookup s2.recentReports s2.ticker = none) := by
  constructor
  · simp [handleAnalyze, hticker, hhit]
  · intro s2 fn oc n h
    by_cases h0 : s2.ticker = ""
    · simp [handleAnalyze, h0] at h
    · cases fn with
      | true => exact Or.inl rfl
      | false =>
          cases hm : lookup s2.recentReports s2.ticker with
          | none => exact Or.inr rfl
          | some c => simp [handleAnalyze, h0, hm] at h

/-- Witness for C4: on `hitHome` the hit is returned with no network call. -/
theorem analyze_cache_hit_no_network_witness :
    handleAnalyze hitHome false (.failure "down") 2000 =
      ({ hitHome with cachedReport := some aaplReport }, false) ∧
    (∀ s2 : HomeState, ∀ fn : Bool, ∀ oc : FetchOutcome, ∀ n : Int,
        (handleAnalyze s2 fn oc n).2 = true →
        fn = true ∨ lookup s2.recentReports s2.ticker = none) :=
  analyze_cache_hit_no_network hitHome (.failure "down") 2000 aaplReport
    (by decide) (by decide) (by decide)

/-- C5: the cache view is sorted descending by `timestamp` (most recent
first): `load` always returns a sorted view, `upsert` preserves sortedness
when the inserted entry carries the current (hence maximal) timestamp,
`deleteCachedReport` preserves sortedness, and inserting "AAPL" then "MSFT"
in that order lists "MSFT" before "AAPL". -/
theorem cache_view_sorted :
    (∀ blob : StoredBlob, ∀ now : Int, SortedDesc (loadCachedReports blob now).1) ∧
    (∀ cache : List CachedReport, ∀ e : CachedReport, SortedDesc cache →
        (∀ r ∈ cache, r.timestamp ≤ e.timestamp) → SortedDesc (upsert cache e)) ∧
    (∀ cache : List CachedReport, ∀ t : String, SortedDesc cache →
        SortedDesc (deleteCachedReport cache t).1) ∧
    (∀ a m : CachedReport, a.ticker ≠ m.ticker →
        upsert (upsert [] a) m = [m, a]) := by
  refine ⟨?_, ?_, ?_, ?_⟩
  · intro blob now
    cases blob with
    | absent => exact List.Pairwise.nil
    | malformed => exact List.Pairwise.nil
    | valid reports => exact sortedDesc_sortDesc _
  · intro cache e hs hb
    refine List.pairwise_cons.mpr ⟨?_, ?_⟩
    · intro b hb2
      exact hb b (List.mem_of_mem_filter hb2)
    · exact hs.filter _
  · intro cache t hs
    exact hs.filter _
  · intro a m hne
    simp [upsert, hne]

/-- Witness for C5: inserting the "AAPL" report then the "MSFT" report
yields a sorted view listing "MSFT" first. -/
theorem cache_view_sorted_witness :
    SortedDesc (upsert [aaplReport] msftReport) ∧
    upsert (upsert [] aaplReport) msftReport = [msftReport, aaplReport] :=
  ⟨cache_view_sorted.2.1 [aaplReport] msftReport (by decide) (by decide),
   cache_view_sorted.2.2.2 aaplReport msftReport (by decide)⟩

/-- C6: when the persisted blob fails to decode, the load yields an empty
cache (no error propagates: the function is total), and the mount effect
leaves the user-visible error and result untouched, so the failure is never
surfaced: the unreadable data is discarded and the page starts empty. -/
theorem load_decode_failure_soft (s : HomeState) (now : Int)
    (hbad : s.storage = .malformed) :
    (loadCachedReports s.storage now).1 = [] ∧
    (onMount s now).error = s.error ∧
    (onMount s now).result = s.result ∧
    (onMount s now).recentReports = s.recentReports := by
  refine ⟨?_, ?_, ?_, ?_⟩ <;> simp [onMount, loadCachedReports, hbad]

/-- Witness for C6: a malformed blob at mount on the idle state. -/
theorem load_decode_failure_soft_witness :
    (loadCachedReports ({ idleHome with storage := .malformed } : HomeState).storage 0).1 = [] ∧
    (onMount { idleHome with storage := .malformed } 0).error =
      ({ idleHome with storage := .malformed } : HomeState).error ∧
    (onMount { idleHome with storage := .malformed } 0).result =
      ({ idleHome with storage := .malformed } : HomeState).result ∧
    (onMount { idleHome with storage := .malformed } 0).recentReports =
      ({ idleHome with storage := .malformed } : HomeState).recentReports :=
  load_decode_failure_soft { idleHome with storage := .malformed } 0 rfl

/-- C7 counterexample: a successful analyze stores the response ticker
verbatim (line 138), so with a server that echoes a lower-case ticker the
key of the cached entry is not upper-case, refuting "every entry stored in the
cache has a normalized (upper-case) ticker". -/
theorem cache_key_not_normalized :
    (handleAnalyze missHome false (.success lowercaseResponse) 0).1.recentReports =
      [{ ticker := "aapl", report := "r", pdf_url := "http://x/r.pdf",
         oi_chart_url := none, timestamp := 0 }] ∧
    upperNormalized "aapl" = false ∧
    lookup (handleAnalyze missHome false (.success lowercaseResponse) 0).1.recentReports
      missHome.ticker = none := by
  refine ⟨rfl, by decide, rfl⟩

/-- C7 amended: `lookup` is an exact, case-sensitive string match on the
stored ticker (any returned entry is a member whose ticker equals the query
exactly, and `lookup` misses exactly when no entry ticker equals it); the
input handler upper-cases the typed value, but the stored ticker of an entry is
the ticker of the remote response kept verbatim. -/
theorem lookup_exact_match :
    (∀ cache : List CachedReport, ∀ t : String, ∀ r : CachedReport,
        lookup cache t = some r → r ∈ cache ∧ r.ticker = t) ∧
    (∀ cache : List CachedReport, ∀ t : String,
        (lookup cache t = none ↔ ∀ r ∈ cache, r.ticker ≠ t)) ∧
    (∀ s : HomeState, ∀ value : String,
        (onTickerChange s value).ticker = value.toUpper) ∧
    (∀ s : HomeState, ∀ data : ApiResponse, ∀ now : Int, s.ticker ≠ "" →
        (handleAnalyze s true (.success data) now).1.recentReports.head? =
          some { ticker := data.ticker, report := data.report,
                 pdf_url := data.pdf_url, oi_chart_url := data.oi_chart_url,
                 timestamp := now }) := by
  refine ⟨?_, ?_, ?_, ?_⟩
  · intro cache t r h
    refine ⟨List.mem_of_find?_eq_some h, ?_⟩
    have hp := List.find?_some h
    simpa using hp
  · intro cache t
    rw [lookup, List.find?_eq_none]
    constructor
    · intro h r hr
      simpa using h r hr
    · intro h r hr
      simpa using h r hr
  · intro s value
    rfl
  · intro s data now ht
    simp [handleAnalyze, ht, upsert]

/-- Witness for C7 (amended): concrete lookup hit, lookup miss, and
verbatim storage of a lower-case response ticker. -/
theorem lookup_exact_match_witness :
    aaplReport ∈ ([aaplReport] : List CachedReport) ∧ aaplReport.ticker = "AAPL" ∧
    (lookup [aaplReport] "TSLA" = none ↔ ∀ r ∈ [aaplReport], r.ticker ≠ "TSLA") ∧
    (handleAnalyze missHome true (.success lowercaseResponse) 0).1.recentReports.head? =
      some { ticker := "aapl", report := "r", pdf_url := "http://x/r.pdf",
             oi_chart_url := none, timestamp := 0 } :=
  ⟨(lookup_exact_match.1 [aaplReport] "AAPL" aaplReport rfl).1,
   (lookup_exact_match.1 [aaplReport] "AAPL" aaplReport rfl).2,
   lookup_exact_match.2.1 [aaplReport] "TSLA",
   lookup_exact_match.2.2.2 missHome lowercaseResponse 0 (by decide)⟩

/-- C8: entries survive a persist/load round-trip: after `upsert e`
persists the merged collection, a `load` within the retention window (and
with no intervening delete) returns a collection containing `e` itself. -/
theorem load_after_upsert_roundtrip (cache : List CachedReport)
    (e : CachedReport) (now : Int)
    (hfresh : now - e.timestamp < RETENTION_WINDOW) :
    e ∈ (loadCachedReports (.valid (upsert cache e)) now).1 := by
  simp only [loadCachedReports]
  rw [mem_sortDesc]
  exact List.mem_filter.mpr ⟨List.mem_cons_self _ _, by simpa using hfresh⟩

/-- Witness for C8: the "MSFT" report survives the round-trip one second
after insertion. -/
theorem load_after_upsert_roundtrip_witness :
    msftReport ∈ (loadCachedReports (.valid (upsert [aaplReport] msftReport)) 3000).1 :=
  load_after_upsert_roundtrip [aaplReport] msftReport 3000 (by decide)
